import Mathlib

/-!
Verification of the concurrent job-orchestration engine of the poi_downloader
repository.  Each definition is a shallow embedding of a function or method of
the Python source (`parallel_poi_crawler_turbo.py`, `poi_crawler_simple.py`,
`parallel_poi_crawler_hybrid.py`); theorems relate those embeddings to the
properties stated in the specification.
-/

namespace PoiDownloader

/-! ## Admission controller: DynamicResourceScheduler

Embeds `DynamicResourceScheduler.__init__` threshold constants and the decision
methods `_should_pause_scheduling`, `_should_resume_scheduling` and the
state-update part of `check_and_adjust_schedule`
(`parallel_poi_crawler_turbo.py` lines 812-887). -/

/-- One sample of `monitor_system_resources()`: the three metric fields the
scheduler inspects.  Percentages and load average are modelled as rationals. -/
structure Resources where
  cpuPercent : ℚ
  systemMemoryPercent : ℚ
  loadAverage : ℚ

def memoryHighThreshold : ℚ := 85

def memoryLowThreshold : ℚ := 60

def cpuHighThreshold : ℚ := 90

def cpuLowThreshold : ℚ := 70

def loadHighThreshold : ℚ := 8

/-- `_should_pause_scheduling`: pause when at least two of the three overload
flags hold, or when system memory exceeds 90 percent. -/
def shouldPauseScheduling (r : Resources) : Bool :=
  let memoryOverload := decide (r.systemMemoryPercent > memoryHighThreshold)
  let cpuOverload := decide (r.cpuPercent > cpuHighThreshold)
  let loadOverload := decide (r.loadAverage > loadHighThreshold)
  let criticalConditions : ℕ :=
    (if memoryOverload then 1 else 0) + (if cpuOverload then 1 else 0) +
      (if loadOverload then 1 else 0)
  decide (criticalConditions ≥ 2) || decide (r.systemMemoryPercent > 90)

/-- `_should_resume_scheduling`: resume only from the paused state and only when
all three metrics are strictly below their low thresholds (the load low
threshold is the literal 6.0 in the source). -/
def shouldResumeScheduling (isPaused : Bool) (r : Resources) : Bool :=
  if !isPaused then false
  else
    decide (r.systemMemoryPercent < memoryLowThreshold) &&
      decide (r.cpuPercent < cpuLowThreshold) &&
      decide (r.loadAverage < 6)

/-- The state-update logic of `check_and_adjust_schedule` once a metric sample
has been taken: pause if `should_pause` holds and the scheduler is running,
resume if `should_resume` holds and it is paused, otherwise keep the state.
`true` means paused. -/
def checkAndAdjustSchedule (isPaused : Bool) (r : Resources) : Bool :=
  let sp := shouldPauseScheduling r
  let sr := shouldResumeScheduling isPaused r
  if sp && !isPaused then true
  else if sr && isPaused then false
  else isPaused

/-- Specification-side count of high-water marks exceeded by a sample. -/
def highWaterExceedCount (r : Resources) : ℕ :=
  (if r.cpuPercent > cpuHighThreshold then 1 else 0) +
    (if r.systemMemoryPercent > memoryHighThreshold then 1 else 0) +
    (if r.loadAverage > loadHighThreshold then 1 else 0)

/-- Specification-side pause condition: at least 2 metrics over their high-water
marks, or memory alone over the hard ceiling of 90 percent. -/
def PauseCondition (r : Resources) : Prop :=
  2 ≤ highWaterExceedCount r ∨ r.systemMemoryPercent > 90

/-- Specification-side resume condition: all three metrics strictly below their
independent low-water marks. -/
def ResumeCondition (r : Resources) : Prop :=
  r.systemMemoryPercent < memoryLowThreshold ∧
    r.cpuPercent < cpuLowThreshold ∧ r.loadAverage < 6

/-! ## Task scheduler retry priority: ChromeWorker.run

Embeds the task-fetching step of `ChromeWorker.run`
(`poi_crawler_simple.py` lines 129-141): the retry queue is polled with
`get_nowait` first, and the main queue is consulted only when the retry queue
raised `Empty`. -/

/-- A task dict as enqueued by the simple crawler: address, optional original
(Japanese) address, source row index, and the retry marker. -/
structure SimpleTask where
  address : String
  originalAddress : Option String
  index : ℕ
  isRetry : Bool
deriving DecidableEq

inductive TaskSource
  | retry
  | main
deriving DecidableEq

/-- One task fetch of the worker loop: pop the retry queue if it is non-empty,
otherwise pop the main task queue.  Returns the fetched task with its source
and the two updated queues (front of list = head of FIFO queue). -/
def workerNextTask (retryQueue taskQueue : List SimpleTask) :
    Option (SimpleTask × TaskSource) × List SimpleTask × List SimpleTask :=
  match retryQueue with
  | t :: rest => (some (t, TaskSource.retry), rest, taskQueue)
  | [] =>
    match taskQueue with
    | t :: rest => (some (t, TaskSource.main), [], rest)
    | [] => (none, [], [])

/-! ## Checkpoint resume filtering

Embeds the resume logic of `SimplePOICrawler._setup_file_processing`
(`poi_crawler_simple.py` lines 954-973: keep addresses whose row index is
strictly greater than the saved `last_processed_index`), the watermark
computation `_get_last_processed_index` (lines 722-726), and the turbo resume
slice `addresses = addresses[start_idx:]`
(`parallel_poi_crawler_turbo.py` line 1737). -/

/-- An address entry built by `load_addresses_from_csv`: the row index of the
source CSV is kept in `index`. -/
structure AddressRow where
  address : String
  originalAddress : Option String
  index : ℕ
deriving DecidableEq

/-- The filter of `_setup_file_processing`: keep addresses with
`index > last_processed_index` (the saved watermark, `-1` when nothing was
processed). -/
def setupRemainingAddresses (addresses : List AddressRow)
    (lastProcessedIndex : ℤ) : List AddressRow :=
  addresses.filter (fun a => lastProcessedIndex < (a.index : ℤ))

/-- The turbo resume slice `addresses[start_idx:]`. -/
def turboRemainingAddresses (addresses : List AddressRow) (startIdx : ℕ) :
    List AddressRow :=
  addresses.drop startIdx

/-- Specification-side description of the turbo slice: the entries whose
position in the loaded batch is at least `startIdx`, in order. -/
def indexedSuffix (addresses : List AddressRow) (startIdx : ℕ) :
    List AddressRow :=
  (addresses.enum.filter (fun p => decide (startIdx ≤ p.1))).map Prod.snd

/-- The watermark `_get_last_processed_index`: the maximum of the set of
processed indices, or `-1` when the set is empty. -/
def lastProcessedIndexOf (processedIndices : Finset ℕ) : ℤ :=
  if h : processedIndices.Nonempty then ((processedIndices.max' h : ℕ) : ℤ)
  else -1

/-! ## Checkpoint persistence

Embeds the file operations performed by the progress savers:
`ParallelPOICrawler._save_progress` (turbo lines 1352-1368, hybrid lines
756-772, and `SimplePOICrawler._save_progress` lines 728-763) open the
progress file itself for writing; `_save_progress_async` (turbo lines
1370-1407) writes `<progress_file>.tmp` and then `os.rename`s it over the
target.  A crash model makes the difference observable: a crash during a
`write` leaves truncated garbage at the written path, while `rename` is atomic
(it either happened or not). -/

/-- The JSON progress record written by the savers (timestamp modelled as a
natural number). -/
structure ProgressData where
  districtName : String
  completedCount : ℕ
  totalCount : ℕ
  totalSuccess : ℕ
  totalErrors : ℕ
  outputFile : String
  timestamp : ℕ
deriving DecidableEq

/-- A file on disk either holds a parseable JSON record or truncated garbage
left by an interrupted write. -/
inductive FileContent
  | json (d : ProgressData)
  | truncated
deriving DecidableEq

/-- File-system operations the savers perform. -/
inductive FileOp
  | write (path : String) (d : ProgressData)
  | rename (src dst : String)
deriving DecidableEq

/-- The operation list of the synchronous savers (turbo `_save_progress`,
hybrid `_save_progress`, simple `_save_progress`): a single direct write of the
progress file. -/
def saveProgressSyncOps (progressFile : String) (d : ProgressData) :
    List FileOp :=
  [FileOp.write progressFile d]

/-- The operation list of `_save_progress_async`: write `progress_file + ".tmp"`
and rename it over the progress file. -/
def saveProgressAsyncOps (progressFile : String) (d : ProgressData) :
    List FileOp :=
  [FileOp.write (progressFile ++ ".tmp") d,
    FileOp.rename (progressFile ++ ".tmp") progressFile]

def applyFileOp (fs : String → Option FileContent) :
    FileOp → (String → Option FileContent)
  | FileOp.write p d => fun q => if q = p then some (FileContent.json d) else fs q
  | FileOp.rename src dst => fun q =>
      if q = dst then fs src else if q = src then none else fs q

def runFileOps (fs : String → Option FileContent) (ops : List FileOp) :
    String → Option FileContent :=
  ops.foldl applyFileOp fs

/-- The file system observed after a crash arriving during operation `k` (zero
based): earlier operations completed; an interrupted `write` leaves truncated
garbage at its path; `rename` is atomic so an interrupted rename simply has not
happened.  `k ≥ length` means the save completed. -/
def crashDuring (fs : String → Option FileContent) (ops : List FileOp)
    (k : ℕ) : String → Option FileContent :=
  let pre := runFileOps fs (ops.take k)
  match ops[k]? with
  | some (FileOp.write p _) =>
      fun q => if q = p then some FileContent.truncated else pre q
  | _ => pre

/-- Crash safety of a save routine with respect to its target file: whatever
the crash point, the target holds either its previous content or the fully
saved new content. -/
def CrashSafe (ops : List FileOp) (target : String) : Prop :=
  ∀ (fs : String → Option FileContent) (k : ℕ),
    crashDuring fs ops k target = fs target ∨
      crashDuring fs ops k target = runFileOps fs ops target

/-- C3-style counterexample record for C5: a previously persisted checkpoint. -/
def oldProgress : ProgressData :=
  ⟨"district", 100, 1000, 90, 10, "out.csv", 1⟩

/-- The record a later save writes. -/
def newProgress : ProgressData :=
  ⟨"district", 200, 1000, 180, 20, "out.csv", 2⟩

/-! ## Result sink deduplication

Embeds the save pipeline: `DataSaveWorker.save_worker_process`
(`parallel_poi_crawler_turbo.py` lines 652-730) concatenates each received
batch, applies `drop_duplicates(subset=['name','lat','lng'], keep='first')` to
that batch alone, and appends the result to the output CSV;
`ResultBuffer._flush_to_disk` (`poi_crawler_simple.py` lines 532-560)
concatenates the buffer and appends it with no deduplication at all. -/

/-- One output record; `payload` stands for the remaining CSV columns
(rating, class, add, comment_count, blt_name). -/
structure PoiRecord where
  name : String
  lat : ℚ
  lng : ℚ
  payload : String
deriving DecidableEq

/-- The dedup key used by `drop_duplicates(subset=['name','lat','lng'])`. -/
def dedupKey (r : PoiRecord) : String × ℚ × ℚ := (r.name, r.lat, r.lng)

/-- Recursion of pandas `drop_duplicates(keep='first')`: keep a record iff its
key has not been seen earlier in the same frame. -/
def dedupGo (seen : List (String × ℚ × ℚ)) :
    List PoiRecord → List PoiRecord
  | [] => []
  | r :: rest =>
    if dedupKey r ∈ seen then dedupGo seen rest
    else r :: dedupGo (dedupKey r :: seen) rest

/-- `drop_duplicates(subset=['name','lat','lng'], keep='first')` on one
batch. -/
def dropDuplicatesFirst (batch : List PoiRecord) : List PoiRecord :=
  dedupGo [] batch

/-- The output store produced by `save_worker_process`: each submitted batch is
deduplicated in isolation and appended (`mode='a'`) to the file. -/
def saveWorkerOutput (initial : List PoiRecord)
    (batches : List (List PoiRecord)) : List PoiRecord :=
  batches.foldl (fun acc b => acc ++ dropDuplicatesFirst b) initial

/-- The output store produced by `ResultBuffer._flush_to_disk`: the buffer is
appended with no deduplication. -/
def resultBufferFlush (output buffer : List PoiRecord) : List PoiRecord :=
  output ++ buffer

/-- No two records of the list share a dedup key. -/
def NoDupKeys (l : List PoiRecord) : Prop :=
  l.Pairwise (fun a b => dedupKey a ≠ dedupKey b)

/-- A record occurring in two successive batches. -/
def dupRecord : PoiRecord := ⟨"poi", 35, 139, "row"⟩

/-! ## Asynchronous save queue: full-queue handling

Embeds `AsyncDataSaveManager.save_batch_async`
(`parallel_poi_crawler_turbo.py` lines 758-772) and the caller-side handling
of a failed submission in `crawl_from_csv_async` (lines 1826-1837).  The save
process drains the queue concurrently; `drained` is the number of batches it
consumed between the failed `put` and the `get_queue_size()` call. -/

/-- The state of the bounded multiprocessing save queue: the queued batches
and the configured `max_queue_size`. -/
structure SaveQueueState where
  queue : List (List PoiRecord)
  maxSize : ℕ
deriving DecidableEq

/-- `save_batch_async`: an empty batch is rejected; otherwise the batch is
enqueued if the bounded queue has room, and `queue.Full` makes the call return
`False` with the queue unchanged. -/
def saveBatchAsync (st : SaveQueueState) (batch : List PoiRecord) :
    Bool × SaveQueueState :=
  if batch.isEmpty then (false, st)
  else if st.queue.length < st.maxSize then
    (true, { st with queue := st.queue ++ [batch] })
  else (false, st)

/-- The caller-side block after a batch is assembled: submit a copy; on success
clear `batch_data`; on failure keep it — unless `get_queue_size()` meanwhile
reports fewer than 10 queued batches, in which case `batch_data` is cleared
without having been enqueued.  Returns the retained buffer and the queue
state. -/
def handleBatchSave (batchData : List PoiRecord) (st : SaveQueueState)
    (drained : ℕ) : List PoiRecord × SaveQueueState :=
  if batchData.isEmpty then (batchData, st)
  else
    let res := saveBatchAsync st batchData
    if res.1 then ([], res.2)
    else
      let st2 : SaveQueueState :=
        { res.2 with queue := res.2.queue.drop drained }
      if st2.queue.length < 10 then ([], st2)
      else (batchData, st2)

/-- A batch record that ends up dropped. -/
def lostRecord : PoiRecord := ⟨"lost", 1, 2, "row"⟩

/-! ## Worker outcome emission

Embeds one iteration of `TurboWorker.run`
(`parallel_poi_crawler_turbo.py` lines 432-528) together with
`TurboWorker.process_task` (lines 530-587), and the escalation decision of
`SimplePOICrawler.process_results` (`poi_crawler_simple.py` lines 875-901).
The collaborator call, the driver acquisition and the post-emission driver
lifecycle step are oracles: the iteration is a function of their outcomes. -/

/-- The result dict of `_crawl_poi_info_turbo`, restricted to the fields the
worker inspects. -/
structure CrawlResult where
  status : String
  isBuilding : Bool
  poiCount : ℕ
  hasData : Bool
  errorMessage : Option String
deriving DecidableEq

/-- The address object built by `crawl_from_csv_async` (primary plus optional
secondary candidate input of a job's ladder). -/
structure AddressObj where
  primary : String
  secondary : Option String
deriving DecidableEq

structure TurboTask where
  addressObj : AddressObj
  index : ℤ
deriving DecidableEq

/-- The outcome dict a worker pushed through `put_result`. -/
structure TaskResult where
  success : Bool
  address : String
  index : ℤ
  error : Option String
deriving DecidableEq

/-- The retry test of `process_task`: not a building, zero POIs, and not a
skipped hotel category page. -/
def turboShouldRetry (r : CrawlResult) : Bool :=
  !r.isBuilding && r.poiCount == 0 &&
    !(r.status == "hotel_category_page_skipped")

/-- `TurboWorker.process_task`: crawl the primary input; when the retry test
holds and a secondary input exists, crawl it and adopt its result when it
succeeded; classify by the final `status`.  Exactly one outcome dict is
returned. -/
def turboProcessTask (task : TurboTask) (primaryResult : CrawlResult)
    (secondaryResult : CrawlResult) : TaskResult :=
  let pick : CrawlResult × String :=
    match task.addressObj.secondary with
    | some sec =>
      if turboShouldRetry primaryResult then
        if secondaryResult.status == "success" then (secondaryResult, sec)
        else (primaryResult, task.addressObj.primary)
      else (primaryResult, task.addressObj.primary)
    | none => (primaryResult, task.addressObj.primary)
  if pick.1.status == "success" then
    { success := true, address := pick.2, index := task.index, error := none }
  else
    { success := false, address := pick.2, index := task.index,
      error := some (pick.1.errorMessage.getD "processing error") }

/-- The outcome recorded when the driver pool stayed exhausted after three
acquisition retries (lines 456-470). -/
def driverPoolExhaustedResult (task : TurboTask) : TaskResult :=
  { success := false, address := task.addressObj.primary, index := task.index,
    error := some "driver pool exhausted after retry" }

/-- The outcome built by the exception handler of the worker loop
(lines 505-514). -/
def workerErrorResult (task : TurboTask) (e : String) : TaskResult :=
  { success := false, address := task.addressObj.primary, index := task.index,
    error := some e }

/-- One iteration of the `TurboWorker.run` loop for a dequeued task, as the
list of outcomes it pushes through `put_result`.  `driver` is the outcome of
the acquisition retry block at lines 444-470: `Except.error` when a
`get_driver` call raises — `create_optimized_driver` re-raises creation
failures at line 132, and the acquisition block lies outside the `try` that
starts at line 473, so the exception propagates out of `run` and the worker
thread dies having pushed nothing for the dequeued task; `Except.ok none`
when the pool stayed exhausted after the three retries; `Except.ok (some d)`
when a driver was obtained.  `proc` is the `process_task` outcome, and
`lifecycle` the outcome of the post-emission block (driver usage increment
and, at the lifetime ceiling, `restart_driver`, lines 484-503), which runs
inside the same `try` after the result was already emitted and only on
success. -/
def turboWorkerIterationOutcomes (task : TurboTask)
    (driver : Except String (Option ℕ))
    (proc : Except String TaskResult) (lifecycle : Except String Unit) :
    List TaskResult :=
  match driver with
  | Except.error _ => []
  | Except.ok none => [driverPoolExhaustedResult task]
  | Except.ok (some _) =>
    match proc with
    | Except.error e => [workerErrorResult task e]
    | Except.ok r =>
      if r.success then
        match lifecycle with
        | Except.ok _ => [r]
        | Except.error e => [r, workerErrorResult task e]
      else [r]

/-- The result dict of the simple crawler worker, restricted to the fields
`process_results` inspects for escalation. -/
structure SimpleResult where
  success : Bool
  address : String
  originalAddress : Option String
  index : ℕ
  resultType : String
  isRetry : Bool
deriving DecidableEq

/-- The escalation test of `process_results` (lines 877-882): success with
result type `invalid_address`, a truthy (non-empty) original address differing
from the used address, not already a retry, and not in the retry cache. -/
def shouldRetrySimple (r : SimpleResult) (retryCache : List String) : Bool :=
  match r.originalAddress with
  | none => false
  | some o =>
    r.success && (r.resultType == "invalid_address") && !o.isEmpty &&
      !(r.address == o) && !r.isRetry && !(retryCache.contains o)

/-- The retry task `process_results` enqueues when escalating (lines 892-897):
it is marked `is_retry = True`. -/
def buildRetryTask (r : SimpleResult) (o : String) : SimpleTask :=
  ⟨o, some o, r.index, true⟩

/-- A crawl result whose status is `success`. -/
def okCrawl : CrawlResult := ⟨"success", true, 5, true, none⟩

/-- A sample task with a one-entry ladder. -/
def sampleTask : TurboTask := ⟨⟨"primary address", none⟩, 0⟩

/-! ## Driver pools

Embeds `ChromeDriverPool` of `parallel_poi_crawler_turbo.py` (lines 40-248:
`get_driver`, `return_driver`, `release_driver`, `increment_driver_usage`,
`restart_driver`) as a state machine over driver ids, and
`HybridDriverPool.get_driver` of `parallel_poi_crawler_hybrid.py`
(lines 109-150).  All pool methods run under the pool lock, so any
interleaving of calls is a sequential trace of operations.  The set of live
(created and not yet destroyed) drivers is tracked as ghost state; the
`reserved_drivers` bookkeeping map is omitted because it is written but never
read by the embedded methods.  Fresh driver ids come from a counter. -/

/-- Value of an association list at a key, defaulting to 0
(`dict.get(key, 0)`). -/
def usageVal (u : List (ℕ × ℕ)) (d : ℕ) : ℕ :=
  match u with
  | [] => 0
  | p :: rest => if p.1 = d then p.2 else usageVal rest d

/-- Key membership in an association list (`key in dict`). -/
def hasKey (u : List (ℕ × ℕ)) (d : ℕ) : Bool :=
  match u with
  | [] => false
  | p :: rest => p.1 == d || hasKey rest d

/-- Dictionary update `dict[key] = value`. -/
def usageSet (u : List (ℕ × ℕ)) (d v : ℕ) : List (ℕ × ℕ) :=
  (d, v) :: u.filter (fun p => p.1 != d)

/-- Dictionary removal `del dict[key]` / `dict.pop(key, None)`. -/
def usageDel (u : List (ℕ × ℕ)) (d : ℕ) : List (ℕ × ℕ) :=
  u.filter (fun p => p.1 != d)

/-- State of the turbo `ChromeDriverPool`: the free deque, the usage counts,
`total_created`, the configuration (`max_drivers`, `driver_max_tasks`), a
fresh-id counter, and the ghost list of live driver ids. -/
structure TurboPoolState where
  pool : List ℕ
  usage : List (ℕ × ℕ)
  totalCreated : ℕ
  maxDrivers : ℕ
  maxTasks : ℕ
  nextId : ℕ
  live : List ℕ
deriving DecidableEq

def initPool (maxDrivers maxTasks : ℕ) : TurboPoolState :=
  ⟨[], [], 0, maxDrivers, maxTasks, 0, []⟩

/-- The `while self.pool` loop of `get_driver`: pop drivers off the free
deque; a popped driver whose health probe (`driver.window_handles`) succeeds
is returned, a failing one is quit and the loop continues.  Returns the found
driver, the remaining deque, and the destroyed drivers. -/
def popHealthy (health : ℕ → Bool) :
    List ℕ → Option ℕ × List ℕ × List ℕ
  | [] => (none, [], [])
  | d :: rest =>
    if health d then (some d, rest, [])
    else
      let r := popHealthy health rest
      (r.1, r.2.1, d :: r.2.2)

/-- The pool state after the deque drain of `get_driver`: the surviving deque
remains, and the drivers destroyed by failed probes leave the live set —
without any decrement of `total_created`. -/
def drainedPool (health : ℕ → Bool) (s : TurboPoolState) : TurboPoolState :=
  { s with pool := (popHealthy health s.pool).2.1,
           live := s.live.filter
             (fun d => !((popHealthy health s.pool).2.2.contains d)) }

/-- `ChromeDriverPool.get_driver`: drain the free deque through the health
probe; if no pooled driver survives, create a new one only when
`total_created < max_drivers` (destruction of an unhealthy pooled driver does
not decrement `total_created`). -/
def getDriver (health : ℕ → Bool) (s : TurboPoolState) :
    Option ℕ × TurboPoolState :=
  match (popHealthy health s.pool).1 with
  | some d => (some d, drainedPool health s)
  | none =>
    if (drainedPool health s).totalCreated < (drainedPool health s).maxDrivers
    then
      (some (drainedPool health s).nextId,
        { drainedPool health s with
            totalCreated := (drainedPool health s).totalCreated + 1,
            live := (drainedPool health s).nextId ::
              (drainedPool health s).live,
            nextId := (drainedPool health s).nextId + 1 })
    else (none, drainedPool health s)

/-- `ChromeDriverPool.return_driver`: on successful cleanup the driver is
appended to the free deque; when cleanup raises, the driver is force-quit and
not returned (`total_created` is not decremented on that path). -/
def returnDriver (s : TurboPoolState) (d : ℕ) (cleanupOk : Bool) :
    TurboPoolState :=
  if cleanupOk then { s with pool := s.pool ++ [d] }
  else { s with live := s.live.erase d }

/-- `ChromeDriverPool.release_driver`: remove the driver from the free deque,
destroy it, and set `total_created = max(0, total_created - 1)` —
unconditionally, whether or not the driver is still live. -/
def releaseDriver (s : TurboPoolState) (d : ℕ) : TurboPoolState :=
  { s with pool := s.pool.filter (fun x => x != d),
           live := s.live.erase d,
           totalCreated := s.totalCreated - 1 }

/-- `ChromeDriverPool.increment_driver_usage`: bump the usage count of a known
driver and report whether it reached `driver_max_tasks`; an unknown driver is
recorded with count 1 and never reported. -/
def incrementDriverUsage (s : TurboPoolState) (d : ℕ) :
    Bool × TurboPoolState :=
  if hasKey s.usage d then
    (decide (usageVal s.usage d + 1 ≥ s.maxTasks),
      { s with usage := usageSet s.usage d (usageVal s.usage d + 1) })
  else (false, { s with usage := usageSet s.usage d 1 })

/-- The pool state after `restart_driver` has force-quit the old driver and
dropped its usage entry (`total_created` untouched). -/
def quitPool (s : TurboPoolState) (d : ℕ) : TurboPoolState :=
  { s with live := s.live.erase d, usage := usageDel s.usage d }

/-- `ChromeDriverPool.restart_driver`: force-quit the old driver, drop its
usage entry, and create a replacement (usage 0) only when
`total_created < max_drivers`; `total_created` is changed on neither path. -/
def restartDriver (s : TurboPoolState) (d : ℕ) :
    Option ℕ × TurboPoolState :=
  if (quitPool s d).totalCreated < (quitPool s d).maxDrivers then
    (some (quitPool s d).nextId,
      { quitPool s d with
          live := (quitPool s d).nextId :: (quitPool s d).live,
          usage := usageSet (quitPool s d).usage (quitPool s d).nextId 0,
          nextId := (quitPool s d).nextId + 1 })
  else (none, quitPool s d)

/-- The post-task lifecycle step of `TurboWorker.run` (lines 484-492): after a
successful task, increment the driver usage and restart the driver when the
increment reports the lifetime ceiling. -/
def completeTask (s : TurboPoolState) (d : ℕ) : TurboPoolState :=
  if (incrementDriverUsage s d).1 then
    (restartDriver (incrementDriverUsage s d).2 d).2
  else (incrementDriverUsage s d).2

/-- A pool operation of a trace: every call site of the pool methods. -/
inductive PoolOp
  | acquire (health : ℕ → Bool)
  | putBack (d : ℕ) (cleanupOk : Bool)
  | release (d : ℕ)
  | complete (d : ℕ)

def applyPoolOp (s : TurboPoolState) : PoolOp → TurboPoolState
  | PoolOp.acquire health => (getDriver health s).2
  | PoolOp.putBack d cleanupOk => returnDriver s d cleanupOk
  | PoolOp.release d => releaseDriver s d
  | PoolOp.complete d => completeTask s d

def runPool (s : TurboPoolState) : List PoolOp → TurboPoolState
  | [] => s
  | op :: rest => runPool (applyPoolOp s op) rest

/-- Discipline of a well-formed trace: `release_driver` and the worker
lifecycle step are invoked only on a currently live driver (in particular no
driver is released twice). -/
def poolOpOk (s : TurboPoolState) : PoolOp → Bool
  | PoolOp.release d => s.live.contains d
  | PoolOp.complete d => s.live.contains d
  | _ => true

def wfOps (s : TurboPoolState) : List PoolOp → Bool
  | [] => true
  | op :: rest => poolOpOk s op && wfOps (applyPoolOp s op) rest

/-- Invariant of the turbo pool maintained along well-formed traces. -/
structure PoolInv (s : TurboPoolState) : Prop where
  nodup : s.live.Nodup
  fresh : ∀ d ∈ s.live, d < s.nextId
  usageFresh : ∀ p ∈ s.usage, p.1 < s.nextId
  countLe : s.live.length ≤ s.totalCreated
  capLe : s.totalCreated ≤ s.maxDrivers
  usageLt : ∀ d ∈ s.live, usageVal s.usage d < s.maxTasks

/-! ### Hybrid pool -/

/-- State of `HybridDriverPool`: free deque, usage counts keyed by driver id
(an entry exists exactly for the drivers the pool still accounts for),
`total_created`, configuration, and a fresh-id counter. -/
structure HybridPoolState where
  pool : List ℕ
  usage : List (ℕ × ℕ)
  totalCreated : ℕ
  maxDrivers : ℕ
  maxUsagePerDriver : ℕ
  nextId : ℕ
deriving DecidableEq

/-- The `while self.pool` loop of `HybridDriverPool.get_driver`: a popped
driver under the usage limit whose probe (`driver.current_url`) succeeds gets
its count bumped and is returned; a failing or over-limit driver is quit and
its usage entry popped. -/
def hybridPop (health : ℕ → Bool) (maxUse : ℕ) :
    List ℕ → List (ℕ × ℕ) → Option ℕ × List ℕ × List (ℕ × ℕ)
  | [], u => (none, [], u)
  | d :: rest, u =>
    if usageVal u d < maxUse then
      if health d then (some d, rest, usageSet u d (usageVal u d + 1))
      else hybridPop health maxUse rest (usageDel u d)
    else hybridPop health maxUse rest (usageDel u d)

/-- `HybridDriverPool.get_driver`: drain the deque through the probe; if no
pooled driver survives, create a new driver (usage 1) when the usage map holds
fewer than `max_drivers` entries and creation succeeds. -/
def hybridGetDriver (health : ℕ → Bool) (createOk : Bool)
    (s : HybridPoolState) : Option ℕ × HybridPoolState :=
  let r := hybridPop health s.maxUsagePerDriver s.pool s.usage
  let s1 : HybridPoolState := { s with pool := r.2.1, usage := r.2.2 }
  match r.1 with
  | some d => (some d, s1)
  | none =>
    if s1.usage.length < s1.maxDrivers then
      if createOk then
        (some s1.nextId,
          { s1 with usage := usageSet s1.usage s1.nextId 1,
                    totalCreated := s1.totalCreated + 1,
                    nextId := s1.nextId + 1 })
      else (none, s1)
    else (none, s1)

/-- A well-formed trace: acquire a driver, complete a task on it, return it,
re-acquire it through a passing probe, then release it once. -/
def singleRetireOps : List PoolOp :=
  [PoolOp.acquire (fun _ => true), PoolOp.complete 0,
    PoolOp.putBack 0 true, PoolOp.acquire (fun _ => true), PoolOp.release 0]

/-- A trace releasing the same driver twice: two drivers are created, driver 0
is released twice (`release_driver` never raises and decrements
`total_created` both times), then two more acquisitions create fresh
drivers. -/
def doubleRetireOps : List PoolOp :=
  [PoolOp.acquire (fun _ => true), PoolOp.acquire (fun _ => true),
    PoolOp.release 0, PoolOp.release 0,
    PoolOp.acquire (fun _ => true), PoolOp.acquire (fun _ => true)]

/-- Setup for the turbo probe-failure counterexample: with `max_drivers = 1`,
create driver 0 and return it to the free deque. -/
def turboProbeSetupOps : List PoolOp :=
  [PoolOp.acquire (fun _ => true), PoolOp.putBack 0 true]

/-! ## Theorems -/

/-- C7: for every sampled metric triple, the scheduler moves Running to Paused
exactly when at least two of the three metrics exceed their high-water marks or
memory alone exceeds the hard ceiling, and moves Paused to Running exactly when
all three metrics are below their low-water marks; no other sample changes the
state. -/
theorem admission_controller_state_transitions (r : Resources) :
    (checkAndAdjustSchedule false r = true ↔ PauseCondition r) ∧
    (checkAndAdjustSchedule true r = false ↔ ResumeCondition r) := by
  constructor
  · unfold checkAndAdjustSchedule shouldPauseScheduling PauseCondition highWaterExceedCount
    by_cases h1 : r.systemMemoryPercent > memoryHighThreshold <;>
      by_cases h2 : r.cpuPercent > cpuHighThreshold <;>
        by_cases h3 : r.loadAverage > loadHighThreshold <;>
          by_cases h4 : r.systemMemoryPercent > 90 <;>
            simp [h1, h2, h3, h4, shouldResumeScheduling]
  · unfold checkAndAdjustSchedule shouldResumeScheduling ResumeCondition
    by_cases h1 : r.systemMemoryPercent < memoryLowThreshold <;>
      by_cases h2 : r.cpuPercent < cpuLowThreshold <;>
        by_cases h3 : r.loadAverage < 6 <;>
          simp [h1, h2, h3, shouldPauseScheduling]

/-- C6: whenever the retry queue is non-empty, the fetched job comes from the
retry queue (its head); a job is taken from the normal queue only when the
retry queue is empty at that moment. -/
theorem retry_queue_priority (rq tq : List SimpleTask) :
    (∀ t rest, rq = t :: rest →
      workerNextTask rq tq = (some (t, TaskSource.retry), rest, tq)) ∧
    (∀ t s rq2 tq2, workerNextTask rq tq = (some (t, s), rq2, tq2) →
      s = TaskSource.main → rq = []) := by
  cases rq with
  | nil =>
    cases tq <;> simp [workerNextTask]
  | cons t rest =>
    refine ⟨by intro a b h; cases h; rfl, ?_⟩
    intro t2 s rq2 tq2 h hs
    simp [workerNextTask] at h
    rw [← h.1.2] at hs
    cases hs

/-- Concrete instantiation of the retry-priority theorem: with one retry task
and one normal task queued, the retry task is fetched. -/
theorem retry_queue_priority_witness :
    workerNextTask [⟨"r", none, 0, true⟩] [⟨"m", none, 1, false⟩] =
      (some (⟨"r", none, 0, true⟩, TaskSource.retry), [],
        [⟨"m", none, 1, false⟩]) :=
  (retry_queue_priority [⟨"r", none, 0, true⟩] [⟨"m", none, 1, false⟩]).1
    ⟨"r", none, 0, true⟩ [] rfl

lemma enumFrom_filter_le_map_snd (l : List AddressRow) :
    ∀ n k : ℕ,
      ((List.enumFrom n l).filter (fun p => decide (k ≤ p.1))).map Prod.snd =
        l.drop (k - n) := by
  induction l with
  | nil => intro n k; simp
  | cons a t ih =>
    intro n k
    by_cases h : k ≤ n
    · have hkn : k - n = 0 := by omega
      have hkn1 : k - (n + 1) = 0 := by omega
      have ht := ih (n + 1) k
      rw [hkn1] at ht
      simp [List.enumFrom, h, hkn, ht]
    · have hkn : k - n = (k - (n + 1)) + 1 := by omega
      have ht := ih (n + 1) k
      simp [List.enumFrom, h, hkn, ht]

/-- C2: on resume, the batch fed to the scheduler contains exactly the jobs
whose index exceeds the saved watermark.  For the simple crawler this is the
membership characterisation of the `index > last_processed_index` filter; for
the turbo crawler the slice `addresses[start_idx:]` equals the subsequence of
entries at positions `≥ start_idx`. -/
theorem resume_feeds_exactly_unprocessed_jobs (addresses : List AddressRow)
    (lastIdx : ℤ) (startIdx : ℕ) :
    (∀ a, a ∈ setupRemainingAddresses addresses lastIdx ↔
      a ∈ addresses ∧ lastIdx < (a.index : ℤ)) ∧
    turboRemainingAddresses addresses startIdx =
      indexedSuffix addresses startIdx := by
  constructor
  · intro a
    simp [setupRemainingAddresses]
  · have h := enumFrom_filter_le_map_snd addresses 0 startIdx
    simp only [Nat.sub_zero] at h
    rw [turboRemainingAddresses, indexedSuffix, List.enum, ← h]

/-- C10: the resume watermark is the maximum index among completed jobs, and
the resumed run feeds only jobs with index strictly above it, so every job with
index at most the maximum — including one that never completed before the
crash — is permanently skipped. -/
theorem checkpoint_watermark_skips_incomplete_jobs (s : Finset ℕ)
    (hs : s.Nonempty) (addresses : List AddressRow) (j : ℕ)
    (hj : j ≤ s.max' hs) :
    lastProcessedIndexOf s = ((s.max' hs : ℕ) : ℤ) ∧
    ∀ a ∈ setupRemainingAddresses addresses (lastProcessedIndexOf s),
      a.index ≠ j := by
  have hval : lastProcessedIndexOf s = ((s.max' hs : ℕ) : ℤ) := by
    simp [lastProcessedIndexOf, hs]
  refine ⟨hval, ?_⟩
  intro a ha
  have hgt : lastProcessedIndexOf s < (a.index : ℤ) := by
    have hm := List.mem_filter.mp ha
    simpa using hm.2
  rw [hval] at hgt
  intro hEq
  rw [hEq] at hgt
  have : (j : ℤ) ≤ ((s.max' hs : ℕ) : ℤ) := by exact_mod_cast hj
  omega

/-- Concrete instantiation of the watermark theorem: completed indices `{0, 2}`
(index 1 crashed before completing), remaining batch `[row 1, row 3]`; the
watermark is 2 and row 1 is skipped by the resumed run. -/
theorem checkpoint_watermark_skips_incomplete_jobs_witness :
    lastProcessedIndexOf {0, 2} =
      ((({0, 2} : Finset ℕ).max' ⟨0, by decide⟩ : ℕ) : ℤ) ∧
    ∀ a ∈ setupRemainingAddresses
        [⟨"addr1", none, 1⟩, ⟨"addr3", none, 3⟩] (lastProcessedIndexOf {0, 2}),
      a.index ≠ 1 :=
  checkpoint_watermark_skips_incomplete_jobs {0, 2} ⟨0, by decide⟩
    [⟨"addr1", none, 1⟩, ⟨"addr3", none, 3⟩] 1 (by decide)

/-- Counterexample to C5: the synchronous savers write the progress file
directly, so a crash during that write leaves truncated garbage in place of the
last good checkpoint — the save is not crash-safe. -/
theorem sync_save_not_crash_safe :
    ¬ CrashSafe (saveProgressSyncOps "progress.json" newProgress)
      "progress.json" := by
  intro h
  have := h (fun q => if q = "progress.json" then
    some (FileContent.json oldProgress) else none) 0
  rcases this with hOld | hNew
  · simp [crashDuring, saveProgressSyncOps, runFileOps] at hOld
  · simp [crashDuring, saveProgressSyncOps, runFileOps, applyFileOp] at hNew

/-- C5 (amended): the asynchronous saver `_save_progress_async` writes to a
temporary file and atomically renames it over the target, so for every crash
point the previously persisted checkpoint (or the completed new one) is what
the target holds; moreover a completed run leaves the new record at the
target. -/
theorem async_save_crash_safe (progressFile : String) (d : ProgressData)
    (hne : progressFile ++ ".tmp" ≠ progressFile) :
    CrashSafe (saveProgressAsyncOps progressFile d) progressFile ∧
    ∀ fs, runFileOps fs (saveProgressAsyncOps progressFile d) progressFile =
      some (FileContent.json d) := by
  constructor
  · intro fs k
    match k with
    | 0 =>
      left
      simp [crashDuring, saveProgressAsyncOps, runFileOps, Ne.symm hne]
    | 1 =>
      left
      simp [crashDuring, saveProgressAsyncOps, runFileOps, applyFileOp,
        Ne.symm hne]
    | (n + 2) =>
      right
      simp [crashDuring, saveProgressAsyncOps, runFileOps]
  · intro fs
    simp [saveProgressAsyncOps, runFileOps, applyFileOp]

/-- Concrete instantiation of the async crash-safety theorem at the path used
by the turbo crawler. -/
theorem async_save_crash_safe_witness :
    CrashSafe (saveProgressAsyncOps "progress.json" newProgress)
      "progress.json" ∧
    ∀ fs, runFileOps fs (saveProgressAsyncOps "progress.json" newProgress)
      "progress.json" = some (FileContent.json newProgress) :=
  async_save_crash_safe "progress.json" newProgress (by decide)

/-- Counterexample to C3: when the same record is submitted in two different
batches, the turbo save worker writes it twice — the output store does contain
two records with the same dedup key. -/
theorem sink_emits_duplicate_across_batches :
    ¬ NoDupKeys (saveWorkerOutput [] [[dupRecord], [dupRecord]]) := by
  have hout : saveWorkerOutput [] [[dupRecord], [dupRecord]] =
      [dupRecord, dupRecord] := rfl
  rw [NoDupKeys, hout]
  intro h
  exact ((List.pairwise_cons.mp h).1 dupRecord (by simp)) rfl

lemma dedupGo_noDupKeys (l : List PoiRecord) :
    ∀ seen, NoDupKeys (dedupGo seen l) ∧
      ∀ r ∈ dedupGo seen l, dedupKey r ∉ seen := by
  induction l with
  | nil => intro seen; simp [dedupGo, NoDupKeys]
  | cons r rest ih =>
    intro seen
    by_cases h : dedupKey r ∈ seen
    · simpa [dedupGo, h] using ih seen
    · have ihr := ih (dedupKey r :: seen)
      refine ⟨?_, ?_⟩
      · rw [NoDupKeys, dedupGo, if_neg h, List.pairwise_cons]
        refine ⟨fun b hb => ?_, ihr.1⟩
        have := ihr.2 b hb
        simp at this
        exact fun hEq => this.1 hEq.symm
      · intro x hx
        rw [dedupGo, if_neg h] at hx
        rcases List.mem_cons.mp hx with hx | hx
        · rw [hx]; exact h
        · have := ihr.2 x hx
          simp at this
          exact this.2

lemma dedupGo_find_eq (l : List PoiRecord) :
    ∀ seen (k : String × ℚ × ℚ), k ∉ seen →
      (dedupGo seen l).find? (fun r => decide (dedupKey r = k)) =
        l.find? (fun r => decide (dedupKey r = k)) := by
  induction l with
  | nil => intro seen k _; simp [dedupGo]
  | cons r rest ih =>
    intro seen k hk
    by_cases h : dedupKey r ∈ seen
    · have hne : dedupKey r ≠ k := fun hEq => hk (hEq ▸ h)
      rw [dedupGo, if_pos h, List.find?_cons_of_neg _ (by simp [hne])]
      exact ih seen k hk
    · by_cases hEq : dedupKey r = k
      · rw [dedupGo, if_neg h, List.find?_cons_of_pos _ (by simp [hEq]),
          List.find?_cons_of_pos _ (by simp [hEq])]
      · rw [dedupGo, if_neg h, List.find?_cons_of_neg _ (by simp [hEq]),
          List.find?_cons_of_neg _ (by simp [hEq])]
        refine ih (dedupKey r :: seen) k ?_
        simp only [List.mem_cons, not_or]
        exact ⟨fun h => hEq h.symm, hk⟩

/-- C3 (amended): within each single submitted batch the turbo save worker
writes no two records with the same dedup key and keeps the first occurrence
of every key (the first record of the batch holding a key is the one written);
across distinct batches — and in the simple `ResultBuffer`, which performs no
deduplication — the output store may contain duplicate keys. -/
theorem sink_dedups_within_each_batch (batch : List PoiRecord) :
    NoDupKeys (dropDuplicatesFirst batch) ∧
    ∀ k : String × ℚ × ℚ,
      (dropDuplicatesFirst batch).find? (fun r => decide (dedupKey r = k)) =
        batch.find? (fun r => decide (dedupKey r = k)) := by
  refine ⟨(dedupGo_noDupKeys batch []).1, ?_⟩
  intro k
  exact dedupGo_find_eq batch [] k (by simp)

/-- C8 at the failing input: the save queue holds 50 batches (full, so the
submission fails) and drains to 5 batches before `get_queue_size()` is read;
the caller then clears `batch_data`, so the submitted record is neither
retained in the in-memory buffer nor present anywhere in the queue — it is
silently dropped and never written. -/
theorem full_queue_batch_dropped :
    (handleBatchSave [lostRecord]
        ⟨List.replicate 50 [dupRecord], 50⟩ 45).1 = [] ∧
    ∀ b ∈ (handleBatchSave [lostRecord]
        ⟨List.replicate 50 [dupRecord], 50⟩ 45).2.queue,
      lostRecord ∉ b := by
  constructor
  · rfl
  · intro b hb
    have hq : (handleBatchSave [lostRecord]
        ⟨List.replicate 50 [dupRecord], 50⟩ 45).2.queue =
        List.replicate 5 [dupRecord] := rfl
    rw [hq] at hb
    have := List.eq_of_mem_replicate hb
    rw [this]
    simp [lostRecord, dupRecord]

/-- Counterexample to C1, in both directions.  Two outcomes: when
`process_task` succeeds (the outcome is already emitted) and the subsequent
driver-lifecycle restart raises — driver creation failures are re-raised by
`create_optimized_driver` — the exception handler of the same `try` block
emits a second, error outcome for the same task.  Zero outcomes: when a
`get_driver` call of the acquisition block raises that same creation failure,
the exception propagates outside the `try` and kills the worker before any
outcome is pushed for the dequeued task. -/
theorem worker_can_emit_zero_or_two_outcomes :
    (turboWorkerIterationOutcomes sampleTask (Except.ok (some 0))
        (Except.ok (turboProcessTask sampleTask okCrawl okCrawl))
        (Except.error "driver creation failed")).length = 2 ∧
    turboWorkerIterationOutcomes sampleTask
        (Except.error "driver creation failed")
        (Except.ok (turboProcessTask sampleTask okCrawl okCrawl))
        (Except.ok ()) = [] :=
  ⟨rfl, rfl⟩

/-- C1 (amended): for every dequeued task, the worker emits exactly one
outcome whenever driver acquisition does not raise and the post-emission
driver-lifecycle step does not raise; when acquisition raises (a
driver-creation failure propagating out of the worker loop, killing the
worker) the task emits zero outcomes; in every non-raising acquisition case
the count is between one and two, the second outcome arising only from a
lifecycle failure after a successful outcome was already emitted.  In the
simple crawler the escalation that re-enqueues a job can never fire on a
retry result (retry results are terminal), so a job escalates at most
once. -/
theorem outcome_counts_per_task :
    (∀ (task : TurboTask) (driver : Option ℕ)
        (proc : Except String TaskResult),
      (turboWorkerIterationOutcomes task (Except.ok driver) proc
          (Except.ok ())).length = 1) ∧
    (∀ (task : TurboTask) (e : String) (proc : Except String TaskResult)
        (lifecycle : Except String Unit),
      turboWorkerIterationOutcomes task (Except.error e) proc
        lifecycle = []) ∧
    (∀ (task : TurboTask) (driver : Option ℕ)
        (proc : Except String TaskResult) (lifecycle : Except String Unit),
      1 ≤ (turboWorkerIterationOutcomes task (Except.ok driver) proc
          lifecycle).length ∧
      (turboWorkerIterationOutcomes task (Except.ok driver) proc
          lifecycle).length ≤ 2) ∧
    (∀ (r : SimpleResult) (cache : List String), r.isRetry = true →
      shouldRetrySimple r cache = false) := by
  refine ⟨?_, ?_, ?_, ?_⟩
  · intro task driver proc
    cases driver with
    | none => simp [turboWorkerIterationOutcomes]
    | some d =>
      cases proc with
      | error e => simp [turboWorkerIterationOutcomes]
      | ok r => by_cases h : r.success <;>
          simp [turboWorkerIterationOutcomes, h]
  · intro task e proc lifecycle
    rfl
  · intro task driver proc lifecycle
    cases driver with
    | none => simp [turboWorkerIterationOutcomes]
    | some d =>
      cases proc with
      | error e => simp [turboWorkerIterationOutcomes]
      | ok r =>
        by_cases h : r.success <;> cases lifecycle <;>
          simp [turboWorkerIterationOutcomes, h]
  · intro r cache hr
    cases ho : r.originalAddress with
    | none => simp [shouldRetrySimple, ho]
    | some o => simp [shouldRetrySimple, ho, hr]

/-- Concrete instantiation of the outcome-count theorem: a healthy iteration
emits exactly one outcome, a raising acquisition emits none, and a retry
result does not re-escalate. -/
theorem outcome_counts_per_task_witness :
    (turboWorkerIterationOutcomes sampleTask (Except.ok (some 0))
        (Except.ok (turboProcessTask sampleTask okCrawl okCrawl))
        (Except.ok ())).length = 1 ∧
    turboWorkerIterationOutcomes sampleTask (Except.error "boom")
        (Except.ok (turboProcessTask sampleTask okCrawl okCrawl))
        (Except.ok ()) = [] ∧
    shouldRetrySimple ⟨true, "addr", some "orig", 0, "invalid_address", true⟩
      [] = false :=
  ⟨outcome_counts_per_task.1 sampleTask (some 0)
      (Except.ok (turboProcessTask sampleTask okCrawl okCrawl)),
    outcome_counts_per_task.2.1 sampleTask "boom"
      (Except.ok (turboProcessTask sampleTask okCrawl okCrawl))
      (Except.ok ()),
    outcome_counts_per_task.2.2.2
      ⟨true, "addr", some "orig", 0, "invalid_address", true⟩ [] rfl⟩

lemma usageVal_filter_ne (u : List (ℕ × ℕ)) (d e : ℕ) (h : e ≠ d) :
    usageVal (u.filter (fun p => p.1 != d)) e = usageVal u e := by
  induction u with
  | nil => rfl
  | cons p rest ih =>
    by_cases hp : p.1 = d
    · have hb : (p.1 != d) = false := by simp [hp]
      rw [List.filter_cons, hb]
      simp only [Bool.false_eq_true, if_false, usageVal]
      rw [if_neg (fun hh : p.1 = e => h (hp ▸ hh).symm)]
      exact ih
    · have hb : (p.1 != d) = true := by simp [hp]
      rw [List.filter_cons, hb]
      simp only [if_true, usageVal]
      by_cases he : p.1 = e
      · rw [if_pos he, if_pos he]
      · rw [if_neg he, if_neg he]
        exact ih

lemma usageVal_set_self (u : List (ℕ × ℕ)) (d v : ℕ) :
    usageVal (usageSet u d v) d = v := by
  simp [usageSet, usageVal]

lemma usageVal_set_ne (u : List (ℕ × ℕ)) (d v e : ℕ) (h : e ≠ d) :
    usageVal (usageSet u d v) e = usageVal u e := by
  simp only [usageSet, usageVal]
  rw [if_neg (fun hh : d = e => h hh.symm)]
  exact usageVal_filter_ne u d e h

lemma usageVal_del_ne (u : List (ℕ × ℕ)) (d e : ℕ) (h : e ≠ d) :
    usageVal (usageDel u d) e = usageVal u e :=
  usageVal_filter_ne u d e h

lemma usageVal_eq_zero (u : List (ℕ × ℕ)) (d : ℕ)
    (h : ∀ p ∈ u, p.1 ≠ d) : usageVal u d = 0 := by
  induction u with
  | nil => rfl
  | cons p rest ih =>
    simp only [usageVal]
    rw [if_neg (h p (List.mem_cons_self p rest))]
    exact ih (fun q hq => h q (List.mem_cons_of_mem p hq))

lemma mem_usageSet (u : List (ℕ × ℕ)) (d v : ℕ) (p : ℕ × ℕ)
    (h : p ∈ usageSet u d v) : p = (d, v) ∨ p ∈ u := by
  rcases List.mem_cons.mp h with h | h
  · exact Or.inl h
  · exact Or.inr (List.mem_filter.mp h).1

lemma mem_usageDel (u : List (ℕ × ℕ)) (d : ℕ) (p : ℕ × ℕ)
    (h : p ∈ usageDel u d) : p ∈ u :=
  (List.mem_filter.mp h).1

lemma usageDel_of_no_key (u : List (ℕ × ℕ)) (d : ℕ)
    (h : ∀ p ∈ u, p.1 ≠ d) : usageDel u d = u := by
  rw [usageDel, List.filter_eq_self]
  intro p hp
  simp [h p hp]

lemma usageDel_length_of_key (u : List (ℕ × ℕ)) (d : ℕ)
    (hnd : (u.map Prod.fst).Nodup) (hd : hasKey u d = true) :
    (usageDel u d).length + 1 = u.length := by
  induction u with
  | nil => cases hd
  | cons p rest ih =>
    have hnd2 : p.1 ∉ rest.map Prod.fst ∧ (rest.map Prod.fst).Nodup := by
      rw [List.map_cons, List.nodup_cons] at hnd
      exact hnd
    by_cases hp : p.1 = d
    · have hrest : ∀ q ∈ rest, q.1 ≠ d := by
        intro q hq hqd
        refine hnd2.1 ?_
        rw [hp, ← hqd]
        exact List.mem_map_of_mem Prod.fst hq
      have hb : (p.1 != d) = false := by simp [hp]
      rw [usageDel, List.filter_cons, hb]
      simp only [Bool.false_eq_true, if_false]
      rw [show rest.filter (fun q => q.1 != d) = rest from usageDel_of_no_key rest d hrest]
      simp
    · have hkey : hasKey rest d = true := by
        simpa [hasKey, hp] using hd
      have hb : (p.1 != d) = true := by simp [hp]
      rw [usageDel, List.filter_cons, hb]
      simp only [if_true, List.length_cons]
      rw [show rest.filter (fun q => q.1 != d) = usageDel rest d from rfl]
      rw [ih hnd2.2 hkey]

lemma poolInv_returnDriver (s : TurboPoolState) (d : ℕ) (ok : Bool)
    (h : PoolInv s) : PoolInv (returnDriver s d ok) := by
  cases ok
  · exact ⟨h.nodup.erase d, fun e he => h.fresh e (List.mem_of_mem_erase he),
      h.usageFresh, le_trans (List.erase_sublist d s.live).length_le h.countLe,
      h.capLe, fun e he => h.usageLt e (List.mem_of_mem_erase he)⟩
  · exact ⟨h.nodup, h.fresh, h.usageFresh, h.countLe, h.capLe, h.usageLt⟩

lemma poolInv_releaseDriver (s : TurboPoolState) (d : ℕ)
    (h : PoolInv s) (hd : d ∈ s.live) : PoolInv (releaseDriver s d) := by
  refine ⟨h.nodup.erase d, fun e he => h.fresh e (List.mem_of_mem_erase he),
    h.usageFresh, ?_, le_trans (Nat.sub_le _ _) h.capLe,
    fun e he => h.usageLt e (List.mem_of_mem_erase he)⟩
  show (s.live.erase d).length ≤ s.totalCreated - 1
  rw [List.length_erase_of_mem hd]
  exact Nat.sub_le_sub_right h.countLe 1

lemma poolInv_drainedPool (health : ℕ → Bool) (s : TurboPoolState)
    (h : PoolInv s) : PoolInv (drainedPool health s) :=
  ⟨h.nodup.filter _,
    fun e he => h.fresh e (List.mem_filter.mp he).1,
    h.usageFresh,
    le_trans (List.length_filter_le _ _) h.countLe,
    h.capLe,
    fun e he => h.usageLt e (List.mem_filter.mp he).1⟩

lemma poolInv_create (t : TurboPoolState) (h : PoolInv t)
    (hc : t.totalCreated < t.maxDrivers) (hT : 1 ≤ t.maxTasks) :
    PoolInv { t with totalCreated := t.totalCreated + 1,
                     live := t.nextId :: t.live, nextId := t.nextId + 1 } := by
  refine ⟨?_, ?_, ?_, ?_, hc, ?_⟩
  · exact List.Nodup.cons
      (fun hmem => absurd (h.fresh t.nextId hmem) (lt_irrefl _)) h.nodup
  · intro e he
    rcases List.mem_cons.mp he with he | he
    · rw [he]; exact Nat.lt_succ_self _
    · exact Nat.lt_succ_of_lt (h.fresh e he)
  · intro p hp
    exact Nat.lt_succ_of_lt (h.usageFresh p hp)
  · show (t.nextId :: t.live).length ≤ t.totalCreated + 1
    simp only [List.length_cons]
    exact Nat.succ_le_succ h.countLe
  · intro e he
    rcases List.mem_cons.mp he with he | he
    · show usageVal t.usage e < t.maxTasks
      rw [he, usageVal_eq_zero t.usage t.nextId
        (fun p hp => Nat.ne_of_lt (h.usageFresh p hp))]
      exact lt_of_lt_of_le Nat.zero_lt_one hT
    · exact h.usageLt e he

lemma poolInv_getDriver (health : ℕ → Bool) (s : TurboPoolState)
    (h : PoolInv s) (hT : 1 ≤ s.maxTasks) : PoolInv (getDriver health s).2 := by
  have hbase := poolInv_drainedPool health s h
  have hT2 : 1 ≤ (drainedPool health s).maxTasks := hT
  unfold getDriver
  cases (popHealthy health s.pool).1 with
  | some d => exact hbase
  | none =>
    by_cases hc : (drainedPool health s).totalCreated <
        (drainedPool health s).maxDrivers
    · rw [if_pos hc]
      exact poolInv_create _ hbase hc hT2
    · rw [if_neg hc]
      exact hbase

lemma poolInv_quitPool_weak (s : TurboPoolState) (d : ℕ)
    (hnodup : s.live.Nodup) (hfresh : ∀ e ∈ s.live, e < s.nextId)
    (husageFresh : ∀ p ∈ s.usage, p.1 < s.nextId)
    (hcount : s.live.length ≤ s.totalCreated)
    (hcap : s.totalCreated ≤ s.maxDrivers)
    (husage : ∀ e ∈ s.live, e ≠ d → usageVal s.usage e < s.maxTasks) :
    PoolInv (quitPool s d) := by
  refine ⟨hnodup.erase d, fun e he => hfresh e (List.mem_of_mem_erase he),
    fun p hp => husageFresh p (mem_usageDel _ _ p hp),
    le_trans (List.erase_sublist d s.live).length_le hcount, hcap, ?_⟩
  intro e he
  have hm := (hnodup.mem_erase_iff).mp he
  show usageVal (usageDel s.usage d) e < s.maxTasks
  rw [usageVal_del_ne _ _ _ hm.1]
  exact husage e hm.2 hm.1

lemma poolInv_restartDriver_weak (s : TurboPoolState) (d : ℕ)
    (hnodup : s.live.Nodup) (hfresh : ∀ e ∈ s.live, e < s.nextId)
    (husageFresh : ∀ p ∈ s.usage, p.1 < s.nextId)
    (hcount : s.live.length ≤ s.totalCreated)
    (hcap : s.totalCreated ≤ s.maxDrivers)
    (husage : ∀ e ∈ s.live, e ≠ d → usageVal s.usage e < s.maxTasks)
    (hd : d ∈ s.live) (hT : 1 ≤ s.maxTasks) :
    PoolInv (restartDriver s d).2 := by
  have hq := poolInv_quitPool_weak s d hnodup hfresh husageFresh hcount hcap
    husage
  unfold restartDriver
  by_cases hc : (quitPool s d).totalCreated < (quitPool s d).maxDrivers
  · rw [if_pos hc]
    refine ⟨?_, ?_, ?_, ?_, hq.capLe, ?_⟩
    · exact List.Nodup.cons
        (fun hmem => absurd (hq.fresh _ hmem) (lt_irrefl _)) hq.nodup
    · intro e he
      rcases List.mem_cons.mp he with he | he
      · rw [he]; exact Nat.lt_succ_self _
      · exact Nat.lt_succ_of_lt (hq.fresh e he)
    · intro p hp
      rcases mem_usageSet _ _ _ p hp with hp | hp
      · rw [hp]; exact Nat.lt_succ_self _
      · exact Nat.lt_succ_of_lt (hq.usageFresh p hp)
    · show ((quitPool s d).nextId :: (quitPool s d).live).length ≤
        (quitPool s d).totalCreated
      simp only [List.length_cons]
      show (s.live.erase d).length + 1 ≤ s.totalCreated
      rw [List.length_erase_of_mem hd]
      have h1 : 1 ≤ s.live.length :=
        List.length_pos.mpr (List.ne_nil_of_mem hd)
      omega
    · intro e he
      rcases List.mem_cons.mp he with he | he
      · rw [he, usageVal_set_self]
        show 0 < (quitPool s d).maxTasks
        exact lt_of_lt_of_le Nat.zero_lt_one hT
      · have hne : e ≠ (quitPool s d).nextId := Nat.ne_of_lt (hq.fresh e he)
        rw [usageVal_set_ne _ _ _ _ hne]
        exact hq.usageLt e he
  · rw [if_neg hc]
    exact hq

lemma incrementDriverUsage_snd_key (s : TurboPoolState) (d : ℕ)
    (hk : hasKey s.usage d = true) :
    (incrementDriverUsage s d).2 =
      { s with usage := usageSet s.usage d (usageVal s.usage d + 1) } := by
  unfold incrementDriverUsage
  rw [if_pos hk]

lemma incrementDriverUsage_snd_nokey (s : TurboPoolState) (d : ℕ)
    (hk : ¬ hasKey s.usage d = true) :
    (incrementDriverUsage s d).2 =
      { s with usage := usageSet s.usage d 1 } := by
  unfold incrementDriverUsage
  rw [if_neg hk]

lemma incrementDriverUsage_fst_key (s : TurboPoolState) (d : ℕ)
    (hk : hasKey s.usage d = true) :
    (incrementDriverUsage s d).1 =
      decide (usageVal s.usage d + 1 ≥ s.maxTasks) := by
  unfold incrementDriverUsage
  rw [if_pos hk]

lemma poolInv_setUsage_lt (s : TurboPoolState) (d v : ℕ) (h : PoolInv s)
    (hdlt : d < s.nextId) (hvlt : v < s.maxTasks) :
    PoolInv { s with usage := usageSet s.usage d v } := by
  refine ⟨h.nodup, h.fresh, ?_, h.countLe, h.capLe, ?_⟩
  · intro p hp
    rcases mem_usageSet _ _ _ p hp with hp | hp
    · rw [hp]; exact hdlt
    · exact h.usageFresh p hp
  · intro e he
    by_cases hede : e = d
    · rw [hede]
      show usageVal (usageSet s.usage d v) d < s.maxTasks
      rw [usageVal_set_self]
      exact hvlt
    · show usageVal (usageSet s.usage d v) e < s.maxTasks
      rw [usageVal_set_ne _ _ _ _ hede]
      exact h.usageLt e he

lemma poolInv_setUsage_restart (s : TurboPoolState) (d v : ℕ) (h : PoolInv s)
    (hdlt : d < s.nextId) (hd : d ∈ s.live) (hT : 1 ≤ s.maxTasks) :
    PoolInv (restartDriver { s with usage := usageSet s.usage d v } d).2 := by
  refine poolInv_restartDriver_weak _ d h.nodup h.fresh ?_ h.countLe h.capLe
    ?_ hd hT
  · intro p hp
    rcases mem_usageSet _ _ _ p hp with hp | hp
    · rw [hp]; exact hdlt
    · exact h.usageFresh p hp
  · intro e he hne
    show usageVal (usageSet s.usage d v) e < s.maxTasks
    rw [usageVal_set_ne _ _ _ _ hne]
    exact h.usageLt e he

lemma poolInv_completeTask (s : TurboPoolState) (d : ℕ)
    (h : PoolInv s) (hd : d ∈ s.live) (hT : 2 ≤ s.maxTasks) :
    PoolInv (completeTask s d) := by
  have hdlt : d < s.nextId := h.fresh d hd
  unfold completeTask
  split
  case isTrue hflag =>
    by_cases hk : hasKey s.usage d
    · rw [incrementDriverUsage_snd_key s d hk]
      exact poolInv_setUsage_restart s d _ h hdlt hd (by omega)
    · rw [incrementDriverUsage_snd_nokey s d hk]
      exact poolInv_setUsage_restart s d 1 h hdlt hd (by omega)
  case isFalse hflag =>
    by_cases hk : hasKey s.usage d
    · rw [incrementDriverUsage_snd_key s d hk]
      have hge : ¬ usageVal s.usage d + 1 ≥ s.maxTasks := by
        intro hge
        refine hflag ?_
        rw [incrementDriverUsage_fst_key s d hk]
        exact decide_eq_true hge
      exact poolInv_setUsage_lt s d _ h hdlt (by omega)
    · rw [incrementDriverUsage_snd_nokey s d hk]
      exact poolInv_setUsage_lt s d 1 h hdlt (by omega)

lemma poolInv_applyPoolOp (s : TurboPoolState) (op : PoolOp)
    (h : PoolInv s) (hT : 2 ≤ s.maxTasks) (hok : poolOpOk s op = true) :
    PoolInv (applyPoolOp s op) := by
  cases op with
  | acquire health => exact poolInv_getDriver health s h (by omega)
  | putBack d cleanupOk => exact poolInv_returnDriver s d cleanupOk h
  | release d =>
    have hd : d ∈ s.live := by
      have : s.live.contains d = true := hok
      simpa using this
    exact poolInv_releaseDriver s d h hd
  | complete d =>
    have hd : d ∈ s.live := by
      have : s.live.contains d = true := hok
      simpa using this
    exact poolInv_completeTask s d h hd hT

lemma applyPoolOp_config (s : TurboPoolState) (op : PoolOp) :
    (applyPoolOp s op).maxDrivers = s.maxDrivers ∧
    (applyPoolOp s op).maxTasks = s.maxTasks := by
  cases op with
  | acquire health =>
    show (getDriver health s).2.maxDrivers = s.maxDrivers ∧
      (getDriver health s).2.maxTasks = s.maxTasks
    unfold getDriver
    cases (popHealthy health s.pool).1 with
    | some d => exact ⟨rfl, rfl⟩
    | none =>
      by_cases hc : (drainedPool health s).totalCreated <
          (drainedPool health s).maxDrivers
      · rw [if_pos hc]; exact ⟨rfl, rfl⟩
      · rw [if_neg hc]; exact ⟨rfl, rfl⟩
  | putBack d cleanupOk =>
    cases cleanupOk <;> exact ⟨rfl, rfl⟩
  | release d => exact ⟨rfl, rfl⟩
  | complete d =>
    show (completeTask s d).maxDrivers = s.maxDrivers ∧
      (completeTask s d).maxTasks = s.maxTasks
    unfold completeTask
    split
    · by_cases hk : hasKey s.usage d
      · rw [incrementDriverUsage_snd_key s d hk]
        unfold restartDriver
        split
        · exact ⟨rfl, rfl⟩
        · exact ⟨rfl, rfl⟩
      · rw [incrementDriverUsage_snd_nokey s d hk]
        unfold restartDriver
        split
        · exact ⟨rfl, rfl⟩
        · exact ⟨rfl, rfl⟩
    · by_cases hk : hasKey s.usage d
      · rw [incrementDriverUsage_snd_key s d hk]
        exact ⟨rfl, rfl⟩
      · rw [incrementDriverUsage_snd_nokey s d hk]
        exact ⟨rfl, rfl⟩

lemma runPool_inv (ops : List PoolOp) :
    ∀ s : TurboPoolState, PoolInv s → 2 ≤ s.maxTasks →
      wfOps s ops = true →
      PoolInv (runPool s ops) ∧
        (runPool s ops).maxDrivers = s.maxDrivers ∧
        (runPool s ops).maxTasks = s.maxTasks := by
  induction ops with
  | nil =>
    intro s h hT _
    exact ⟨h, rfl, rfl⟩
  | cons op rest ih =>
    intro s h hT hwf
    rw [wfOps, Bool.and_eq_true] at hwf
    have hstep := poolInv_applyPoolOp s op h hT hwf.1
    have hcfg := applyPoolOp_config s op
    have hrec := ih (applyPoolOp s op) hstep (by rw [hcfg.2]; exact hT) hwf.2
    exact ⟨hrec.1, by rw [runPool, hrec.2.1, hcfg.1],
      by rw [runPool, hrec.2.2, hcfg.2]⟩

/-- C4 (amended): along every interleaving of pool calls in which
`release_driver` and the worker lifecycle step target only currently-live
drivers (so no driver is released twice), the number of live drivers never
exceeds `max_drivers`, and every live driver's usage count stays strictly
below the lifetime ceiling `driver_max_tasks` (for the configured ceiling,
which is at least 2): a driver reaching the ceiling is retired within the
same lifecycle step. -/
theorem pool_bounds_under_single_retire (maxDrivers maxTasks : ℕ)
    (hT : 2 ≤ maxTasks) (ops : List PoolOp)
    (hwf : wfOps (initPool maxDrivers maxTasks) ops = true) :
    (runPool (initPool maxDrivers maxTasks) ops).live.length ≤ maxDrivers ∧
    ∀ d ∈ (runPool (initPool maxDrivers maxTasks) ops).live,
      usageVal (runPool (initPool maxDrivers maxTasks) ops).usage d <
        maxTasks := by
  have hinit : PoolInv (initPool maxDrivers maxTasks) :=
    ⟨List.nodup_nil, (fun e he => absurd he (List.not_mem_nil e)),
      (fun p hp => absurd hp (List.not_mem_nil p)), Nat.le_refl 0,
      Nat.zero_le _, (fun e he => absurd he (List.not_mem_nil e))⟩
  have h := runPool_inv ops (initPool maxDrivers maxTasks) hinit hT hwf
  refine ⟨?_, ?_⟩
  · calc (runPool (initPool maxDrivers maxTasks) ops).live.length
        ≤ (runPool (initPool maxDrivers maxTasks) ops).totalCreated :=
          h.1.countLe
      _ ≤ (runPool (initPool maxDrivers maxTasks) ops).maxDrivers :=
          h.1.capLe
      _ = maxDrivers := h.2.1
  · intro d hd
    have := h.1.usageLt d hd
    rwa [h.2.2] at this

/-- Concrete instantiation of the amended pool-bounds theorem on a
five-operation trace with pool size 2 and ceiling 100. -/
theorem pool_bounds_under_single_retire_witness :
    (runPool (initPool 2 100) singleRetireOps).live.length ≤ 2 ∧
    ∀ d ∈ (runPool (initPool 2 100) singleRetireOps).live,
      usageVal (runPool (initPool 2 100) singleRetireOps).usage d < 100 :=
  pool_bounds_under_single_retire 2 100 (by omega) singleRetireOps (by decide)

/-- Counterexample to C4: with pool size 2, releasing driver 0 twice
decrements `total_created` twice, after which two further acquisitions both
pass the `total_created < max_drivers` guard — three drivers are live at once,
exceeding the configured pool size. -/
theorem double_retire_exceeds_pool_size :
    (runPool (initPool 2 100) doubleRetireOps).live.length = 3 ∧
    2 < (runPool (initPool 2 100) doubleRetireOps).live.length := by decide

/-- Counterexample to C9 on the turbo pool: driver 0 is drawn from the free
deque, its health probe fails and it is destroyed — but `total_created` still
counts it, so the same `get_driver` call returns `None` instead of creating a
replacement: the destruction does count against the creation cap. -/
theorem turbo_failed_probe_keeps_cap_slot :
    (getDriver (fun _ => false)
      (runPool (initPool 1 100) turboProbeSetupOps)).1 = none ∧
    (getDriver (fun _ => false)
      (runPool (initPool 1 100) turboProbeSetupOps)).2.live = [] ∧
    (getDriver (fun _ => false)
      (runPool (initPool 1 100) turboProbeSetupOps)).2.totalCreated = 1 := by
  decide

/-- C9 (amended): in the hybrid pool a failed health probe destroys the handle
and pops its usage entry, so the destroyed handle counts against neither the
free list nor the creation cap: even when the usage map held `max_drivers`
entries, the same `get_driver` call creates a fresh replacement and the map
returns to `max_drivers` entries (the turbo pool instead keeps charging
`total_created` for the destroyed handle). -/
theorem hybrid_failed_probe_frees_creation_slot (health : ℕ → Bool)
    (s : HybridPoolState) (d : ℕ)
    (hpool : s.pool = [d]) (hprobe : health d = false)
    (hunder : usageVal s.usage d < s.maxUsagePerDriver)
    (hnd : (s.usage.map Prod.fst).Nodup) (hkey : hasKey s.usage d = true)
    (hcap : s.usage.length = s.maxDrivers)
    (hfreshId : ∀ p ∈ s.usage, p.1 ≠ s.nextId) :
    (hybridGetDriver health true s).1 = some s.nextId ∧
    (hybridGetDriver health true s).2.usage.length = s.maxDrivers := by
  have hpop : hybridPop health s.maxUsagePerDriver s.pool s.usage =
      (none, [], usageDel s.usage d) := by
    rw [hpool]
    unfold hybridPop
    rw [if_pos hunder, hprobe]
    simp only [Bool.false_eq_true, if_false]
    rfl
  have hdel : (usageDel s.usage d).length + 1 = s.usage.length :=
    usageDel_length_of_key s.usage d hnd hkey
  have hlt : (usageDel s.usage d).length < s.maxDrivers := by omega
  have hsetlen : (usageSet (usageDel s.usage d) s.nextId 1).length =
      (usageDel s.usage d).length + 1 := by
    rw [usageSet]
    rw [show (usageDel s.usage d).filter (fun p => p.1 != s.nextId) =
        usageDel s.usage d from
      usageDel_of_no_key (usageDel s.usage d) s.nextId
        (fun p hp => hfreshId p (mem_usageDel _ _ p hp))]
    rfl
  unfold hybridGetDriver
  rw [hpop]
  simp only
  rw [if_pos (show (usageDel s.usage d).length < s.maxDrivers from hlt)]
  simp only [if_true]
  refine ⟨trivial, ?_⟩
  show (usageSet (usageDel s.usage d) s.nextId 1).length = s.maxDrivers
  omega

/-- Concrete instantiation of the hybrid probe-failure theorem: pool `[0]`,
usage map `[(0, 3)]` at the cap `max_drivers = 1`; the failed probe destroys
driver 0 and the same call creates replacement driver 1. -/
theorem hybrid_failed_probe_frees_creation_slot_witness :
    (hybridGetDriver (fun _ => false) true
      ⟨[0], [(0, 3)], 1, 1, 100, 1⟩).1 = some 1 ∧
    (hybridGetDriver (fun _ => false) true
      ⟨[0], [(0, 3)], 1, 1, 100, 1⟩).2.usage.length = 1 :=
  hybrid_failed_probe_frees_creation_slot (fun _ => false)
    ⟨[0], [(0, 3)], 1, 1, 100, 1⟩ 0 rfl rfl (by decide) (by decide)
    (by decide) (by decide) (by decide)

end PoiDownloader
